import Mathlib

/-!
Verification development for the pyvider-telemetry Telemetry Resolution and
Emission Engine.  The engine's own modules are not present in the source tree
(only example programs, the pytest fixtures and a placeholder utils module
are), so every definition below is modelled from the specification of the
engine; each doc comment records which part of the specification it encodes.

A dotted logger name is modelled by the list of its dot-separated segments
(the specification's resolver itself begins by splitting the name into
segments), and a separate character-level splitter connects concrete dotted
strings such as "auth.service" to that segment model.
-/

namespace PyviderTelemetry

/-- Modelled from the spec: the Level Registry (missing source module
`logger/custom_processors.py` level table).  Severity levels with unique
names and strictly ordered integer ranks; the custom TRACE verbosity level
is positioned numerically below the conventional DEBUG rank. -/
inductive LogLevel where
  | trace
  | debug
  | info
  | warning
  | error
  | critical
  deriving DecidableEq

/-- Modelled from the spec: the numeric rank of each level in the registry's
total order (TRACE below DEBUG, then the conventional ladder). -/
def LogLevel.rank : LogLevel → Nat
  | .trace => 5
  | .debug => 10
  | .info => 20
  | .warning => 30
  | .error => 40
  | .critical => 50

/-- Modelled from the spec: conversion from a level name (as it appears in
environment variables) to the registry member; unrecognized names yield
`none` so that configuration resolution can fail fast on them. -/
def parseLevel (s : String) : Option LogLevel :=
  if s = "TRACE" then some LogLevel.trace
  else if s = "DEBUG" then some LogLevel.debug
  else if s = "INFO" then some LogLevel.info
  else if s = "WARNING" then some LogLevel.warning
  else if s = "ERROR" then some LogLevel.error
  else if s = "CRITICAL" then some LogLevel.critical
  else none

/-- A dotted logger name, modelled as its list of dot-separated segments. -/
abbrev Name := List String

/-- Character-level splitter used to relate concrete dotted strings to the
segment model: accumulates the current segment and cuts at each separator. -/
def splitOnCharAux (sep : Char) : List Char → List Char → List String
  | [], acc => [String.mk acc.reverse]
  | c :: cs, acc =>
      if c = sep then String.mk acc.reverse :: splitOnCharAux sep cs []
      else splitOnCharAux sep cs (c :: acc)

/-- Split a character list at every occurrence of the separator. -/
def splitOnChar (sep : Char) (cs : List Char) : List String :=
  splitOnCharAux sep cs []

/-- Split a dotted logger-name string into its segments. -/
def splitDots (s : String) : Name :=
  splitOnChar '.' s.data

/-- Exact-key association lookup used by the resolver's per-module map and by
the annotator tables. -/
def lookupKey {α : Type} : List (Name × α) → Name → Option α
  | [], _ => none
  | e :: tl, k => if e.1 = k then some e.2 else lookupKey tl k

/-- Modelled from the spec: the descending scan of the Hierarchical Level
Resolver (missing source module; spec section 4.2): for decreasing counts of
leading segments, look the dotted word up in the table; the first (longest)
hit wins. -/
def segLookupAux {α : Type} (tbl : List (Name × α)) (n : Name) : Nat → Option α
  | 0 => none
  | Nat.succ k =>
      match lookupKey tbl (n.take (k + 1)) with
      | some v => some v
      | none => segLookupAux tbl n k

/-- Longest dotted-segment match of a name against a table, starting from the
full name. -/
def segLookup {α : Type} (tbl : List (Name × α)) (n : Name) : Option α :=
  segLookupAux tbl n n.length

/-- Modelled from the spec: `effective_level(logger_name, module_levels,
default_level)` of the Hierarchical Level Resolver — the level bound to the
longest configured dotted-segment key matching the name, else the default. -/
def effective_level (n : Name) (M : List (Name × LogLevel)) (d : LogLevel) : LogLevel :=
  (segLookup M n).getD d

/-- The resolver applied to concrete dotted strings: both the logger name and
the configured keys are split into segments first. -/
def effective_level_str (n : String) (M : List (String × LogLevel)) (d : LogLevel) : LogLevel :=
  effective_level (splitDots n) (M.map (fun e => (splitDots e.1, e.2))) d

/-- Modelled from the spec: `should_emit(logger_name, level)` of the level
check (spec section 4.3): the event passes when its rank reaches the
effective level's rank. -/
def should_emit (M : List (Name × LogLevel)) (d : LogLevel) (n : Name) (l : LogLevel) : Bool :=
  (effective_level n M d).rank ≤ l.rank

/-- A nonempty leading run of whole segments: the segment-model rendering of
the specification's dot-segment-aligned leading part of a dotted name (the
full name, or a part ending exactly at a dot boundary). -/
def isSegPref (p n : Name) : Prop :=
  p ≠ [] ∧ ∃ t : Name, p ++ t = n

theorem lookupKey_eq_of_mem {α : Type} {M : List (Name × α)} {k : Name} {v : α}
    (hnd : (M.map Prod.fst).Nodup) (hm : (k, v) ∈ M) : lookupKey M k = some v := by
  induction M with
  | nil => cases hm
  | cons e tl ih =>
      obtain ⟨k', v'⟩ := e
      rw [List.map_cons, List.nodup_cons] at hnd
      rcases List.mem_cons.mp hm with h | h
      · rw [Prod.mk.injEq] at h
        rcases h with ⟨h1, h2⟩
        subst h1
        subst h2
        simp [lookupKey]
      · have hk : ¬ k' = k := by
          intro he
          subst he
          exact hnd.1 (List.mem_map.mpr ⟨(k', v), h, rfl⟩)
      -- the head key differs, so the lookup recurses into the tail
        simp only [lookupKey, if_neg hk]
        exact ih hnd.2 h

theorem lookupKey_some_mem {α : Type} {M : List (Name × α)} {k : Name} {v : α}
    (h : lookupKey M k = some v) : (k, v) ∈ M := by
  induction M with
  | nil => cases h
  | cons e tl ih =>
      by_cases hk : e.1 = k
      · simp only [lookupKey, if_pos hk] at h
        rcases h with h
        injection h with h
        subst h
        subst hk
        exact List.mem_cons_self e tl
      · simp only [lookupKey, if_neg hk] at h
        exact List.mem_cons_of_mem e (ih h)

theorem segLookupAux_eq_none {α : Type} (tbl : List (Name × α)) (n : Name) (j : Nat)
    (h : ∀ m, m < j → lookupKey tbl (n.take (m + 1)) = none) :
    segLookupAux tbl n j = none := by
  induction j with
  | zero => rfl
  | succ k ih =>
      have hk : lookupKey tbl (n.take (k + 1)) = none := h k (Nat.lt_succ_self k)
      simp only [segLookupAux, hk]
      exact ih (fun m hm => h m (Nat.lt_succ_of_lt hm))

theorem segLookupAux_eq_some {α : Type} (tbl : List (Name × α)) (n : Name) (j : Nat)
    (i : Nat) (v : α)
    (hij : i < j)
    (hv : lookupKey tbl (n.take (i + 1)) = some v)
    (habove : ∀ m, i < m → m < j → lookupKey tbl (n.take (m + 1)) = none) :
    segLookupAux tbl n j = some v := by
  induction j with
  | zero => exact absurd hij (Nat.not_lt_zero i)
  | succ k ih =>
      by_cases he : i = k
      · subst he
        simp only [segLookupAux, hv]
      · have hlt : i < k := Nat.lt_of_le_of_ne (Nat.lt_succ_iff.mp hij) he
        have hnone : lookupKey tbl (n.take (k + 1)) = none :=
          habove k hlt (Nat.lt_succ_self k)
        simp only [segLookupAux, hnone]
        exact ih hlt (fun m h1 h2 => habove m h1 (Nat.lt_succ_of_lt h2))

theorem effective_level_no_match (n : Name) (M : List (Name × LogLevel)) (d : LogLevel)
    (h : ∀ k, k ∈ M.map Prod.fst → ¬ isSegPref k n) :
    effective_level n M d = d := by
  have hz : segLookupAux M n n.length = none := by
    apply segLookupAux_eq_none
    intro m hm
    cases hv : lookupKey M (n.take (m + 1)) with
    | none => rfl
    | some v =>
        exfalso
        have hmem := lookupKey_some_mem hv
        apply h (n.take (m + 1)) (List.mem_map.mpr ⟨_, hmem, rfl⟩)
        constructor
        · have hlen : (n.take (m + 1)).length = m + 1 := by
            rw [List.length_take]
            exact Nat.min_eq_left (Nat.succ_le_of_lt hm)
          intro he
          rw [he] at hlen
          cases hlen
        · exact ⟨n.drop (m + 1), List.take_append_drop (m + 1) n⟩
  simp [effective_level, segLookup, hz]

theorem effective_level_longest (n : Name) (M : List (Name × LogLevel)) (d : LogLevel)
    (k : Name) (l : LogLevel)
    (hnd : (M.map Prod.fst).Nodup)
    (hm : (k, l) ∈ M)
    (hp : isSegPref k n)
    (hmax : ∀ k', k' ∈ M.map Prod.fst → isSegPref k' n → k'.length ≤ k.length) :
    effective_level n M d = l := by
  rcases hp with ⟨hne, t, rfl⟩
  have hkpos : 0 < k.length := List.length_pos.mpr hne
  have htake : (k ++ t).take k.length = k := by
    rw [List.take_append_eq_append_take, List.take_length, Nat.sub_self, List.take_zero,
      List.append_nil]
  have hsome : segLookupAux M (k ++ t) (k ++ t).length = some l := by
    apply segLookupAux_eq_some M (k ++ t) (k ++ t).length (k.length - 1) l
    · rw [List.length_append]
      exact Nat.lt_of_lt_of_le (Nat.sub_lt hkpos Nat.one_pos) (Nat.le_add_right _ _)
    · rw [Nat.sub_add_cancel (Nat.succ_le_of_lt hkpos), htake]
      exact lookupKey_eq_of_mem hnd hm
    · intro m h1 h2
      cases hv : lookupKey M ((k ++ t).take (m + 1)) with
      | none => rfl
      | some v =>
          exfalso
          have hmem := lookupKey_some_mem hv
          have hmlen : m + 1 ≤ (k ++ t).length := Nat.succ_le_of_lt h2
          have hlen : ((k ++ t).take (m + 1)).length = m + 1 := by
            rw [List.length_take]
            exact Nat.min_eq_left hmlen
          have hsp : isSegPref ((k ++ t).take (m + 1)) (k ++ t) := by
            constructor
            · intro he
              rw [he] at hlen
              cases hlen
            · exact ⟨(k ++ t).drop (m + 1), List.take_append_drop (m + 1) (k ++ t)⟩
          have hle := hmax _ (List.mem_map.mpr ⟨_, hmem, rfl⟩) hsp
          rw [hlen] at hle
          omega
  simp only [effective_level, segLookup]
  rw [hsome]
  rfl

/-- Modelled from the spec: the console formatter selection. -/
inductive Formatter where
  | json
  | keyValue
  deriving DecidableEq

/-- Modelled from the spec: the user-facing `LoggingConfig` value object
(missing source module `config.py`).  A `none` field is an unset optional
sub-field, which configuration resolution fills from the environment or from
the built-in default. -/
structure LoggingConfig where
  default_level : Option LogLevel := none
  module_levels : Option (List (Name × LogLevel)) := none
  console_formatter : Option Formatter := none
  logger_name_emoji_prefix_enabled : Option Bool := none
  das_emoji_prefix_enabled : Option Bool := none
  omit_timestamp : Option Bool := none
  deriving DecidableEq

/-- Modelled from the spec: the top-level `TelemetryConfig` value object. -/
structure TelemetryConfig where
  service_name : Option String := none
  logging : LoggingConfig := {}
  deriving DecidableEq

/-- A fully resolved logging configuration: every field carries a value. -/
structure LoggingConfigR where
  default_level : LogLevel
  module_levels : List (Name × LogLevel)
  console_formatter : Formatter
  logger_name_emoji_prefix_enabled : Bool
  das_emoji_prefix_enabled : Bool
  omit_timestamp : Bool
  deriving DecidableEq

/-- A fully resolved telemetry configuration. -/
structure ResolvedConfig where
  service_name : Option String
  logging : LoggingConfigR
  deriving DecidableEq

/-- Modelled from the spec: the representative set of `PYVIDER_*` environment
variables read by configuration resolution; `none` means the variable is not
set in the process environment. -/
structure Env where
  PYVIDER_SERVICE_NAME : Option String := none
  PYVIDER_LOG_LEVEL : Option String := none
  PYVIDER_LOG_CONSOLE_FORMATTER : Option String := none
  PYVIDER_LOG_MODULE_LEVELS : Option String := none
  PYVIDER_LOG_DAS_EMOJI_ENABLED : Option String := none
  PYVIDER_LOG_OMIT_TIMESTAMP : Option String := none
  deriving DecidableEq

/-- Level-name parsing that fails with a descriptive error on an unrecognized
name, as the configuration invariant demands. -/
def parseLevelE (s : String) : Except String LogLevel :=
  match parseLevel s with
  | some l => Except.ok l
  | none => Except.error ("Invalid log level name: " ++ s)

/-- Formatter-name parsing with a descriptive error on an unrecognized name. -/
def parseFormatterE (s : String) : Except String Formatter :=
  if s = "json" then Except.ok Formatter.json
  else if s = "key_value" then Except.ok Formatter.keyValue
  else Except.error ("Invalid console formatter: " ++ s)

/-- Boolean environment-value parsing with a descriptive error. -/
def parseBoolE (s : String) : Except String Bool :=
  if s = "true" then Except.ok true
  else if s = "false" then Except.ok false
  else Except.error ("Invalid boolean value: " ++ s)

/-- Shape check of one colon-split `module:LEVEL` entry: anything other than
exactly two parts with a nonempty module part and a registry level name is
malformed. -/
def malformedPairCore : List String → Bool
  | [p, lvl] => p == "" || (parseLevel lvl).isNone
  | _ => true

/-- A malformed `module:LEVEL` entry as the specification enumerates the
cases: no colon at all (or more than one), an empty module part, or a level
name outside the registry. -/
def malformedPair (s : String) : Bool :=
  malformedPairCore (splitOnChar ':' s.data)

/-- Parse one colon-split `module:LEVEL` entry, failing with a descriptive
error on each malformed shape. -/
def parsePairCore (orig : String) : List String → Except String (Name × LogLevel)
  | [p, lvl] =>
      if p = "" then Except.error ("Empty module name in module-level pair: " ++ orig)
      else
        match parseLevel lvl with
        | some l => Except.ok (splitDots p, l)
        | none => Except.error ("Invalid level name in module-level pair: " ++ orig)
  | _ => Except.error ("Malformed module-level pair, expected MODULE:LEVEL, got: " ++ orig)

/-- Parse one `module:LEVEL` entry of the module-levels variable. -/
def parsePair (s : String) : Except String (Name × LogLevel) :=
  parsePairCore s (splitOnChar ':' s.data)

/-- Parse every comma-separated entry independently; the first malformed
entry aborts the whole resolution. -/
def parsePairs : List String → Except String (List (Name × LogLevel))
  | [] => Except.ok []
  | p :: ps =>
      match parsePair p with
      | Except.error e => Except.error e
      | Except.ok kv =>
          match parsePairs ps with
          | Except.error e => Except.error e
          | Except.ok rest => Except.ok (kv :: rest)

/-- Modelled from the spec: parsing of the `PYVIDER_LOG_MODULE_LEVELS`
environment variable — a comma-separated list of `module:LEVEL` pairs, with
fail-fast behaviour on any malformed pair. -/
def parseModuleLevelsE (s : String) : Except String (List (Name × LogLevel)) :=
  parsePairs (splitOnChar ',' s.data)

/-- Modelled from the spec: resolution of one optional sub-field — an
explicitly set value wins outright; an unset field takes the environment
value (whose parse failure aborts resolution); an absent variable defaults. -/
def resolveField {α : Type} (explicitVal : Option α) (envVal : Option String)
    (parse : String → Except String α) (dflt : α) : Except String α :=
  match explicitVal with
  | some v => Except.ok v
  | none =>
      match envVal with
      | some s => parse s
      | none => Except.ok dflt

/-- Modelled from the spec: field-granular resolution of `LoggingConfig`
against the environment.  Built-in defaults: level DEBUG, key-value console
formatter, both emoji annotators enabled, timestamps kept, no module rules.
The logger-name emoji flag has no environment variable in the representative
set, so an unset flag falls straight back to its default. -/
def resolveLogging (base : LoggingConfig) (env : Env) : Except String LoggingConfigR :=
  match resolveField base.module_levels env.PYVIDER_LOG_MODULE_LEVELS parseModuleLevelsE [] with
  | Except.error e => Except.error e
  | Except.ok ml =>
      match resolveField base.default_level env.PYVIDER_LOG_LEVEL parseLevelE LogLevel.debug with
      | Except.error e => Except.error e
      | Except.ok dl =>
          match resolveField base.console_formatter env.PYVIDER_LOG_CONSOLE_FORMATTER
              parseFormatterE Formatter.keyValue with
          | Except.error e => Except.error e
          | Except.ok cf =>
              match resolveField base.das_emoji_prefix_enabled env.PYVIDER_LOG_DAS_EMOJI_ENABLED
                  parseBoolE true with
              | Except.error e => Except.error e
              | Except.ok de =>
                  match resolveField base.omit_timestamp env.PYVIDER_LOG_OMIT_TIMESTAMP
                      parseBoolE false with
                  | Except.error e => Except.error e
                  | Except.ok ot =>
                      Except.ok ⟨dl, ml, cf,
                        base.logger_name_emoji_prefix_enabled.getD true, de, ot⟩

/-- Modelled from the spec: `resolve(explicit) -> TelemetryConfig` (spec
section 4.1).  With an explicit configuration, its set fields win and only
unset optional sub-fields within `LoggingConfig` fall back to environment-or-
default resolution; the top-level service name is taken as supplied.  With
no explicit configuration, everything comes from the environment with
defaults for absent variables. -/
def resolveConfig (explicitCfg : Option TelemetryConfig) (env : Env) :
    Except String ResolvedConfig :=
  match explicitCfg with
  | some c =>
      match resolveLogging c.logging env with
      | Except.error e => Except.error e
      | Except.ok lg => Except.ok ⟨c.service_name, lg⟩
  | none =>
      match resolveLogging {} env with
      | Except.error e => Except.error e
      | Except.ok lg => Except.ok ⟨env.PYVIDER_SERVICE_NAME, lg⟩

/-- The built-in default resolved logging configuration. -/
def defaultLoggingConfigR : LoggingConfigR :=
  ⟨LogLevel.debug, [], Formatter.keyValue, true, true, false⟩

/-- Modelled from the spec: the implicit default configuration used when
logging happens before any setup call. -/
def defaultResolvedConfig : ResolvedConfig :=
  ⟨none, defaultLoggingConfigR⟩

/-- The output sink: standard error by default, or a redirected test target. -/
inductive Sink where
  | stderr
  | custom (id : Nat)
  deriving DecidableEq

/-- Modelled from the spec: the process-wide `EmissionState` — the active
configuration (absent until a setup call) and the active output sink. -/
structure EmissionState where
  config : Option ResolvedConfig := none
  sink : Sink := Sink.stderr
  deriving DecidableEq

/-- The default, uninitialized engine state: no configuration, stderr sink. -/
def initialEmissionState : EmissionState := {}

/-- Modelled from the spec: `setup_telemetry(config)` — resolves the
configuration (explicit or environment-based) and replaces the engine's
configuration wholesale; a configuration error aborts the setup. -/
def setup_telemetry (cfg : Option TelemetryConfig) (env : Env) (s : EmissionState) :
    Except String EmissionState :=
  match resolveConfig cfg env with
  | Except.error e => Except.error e
  | Except.ok r => Except.ok { s with config := some r }

/-- `setup_telemetry()` called with no argument: the omitted parameter
defaults to `None` exactly as in the call sites of the test fixtures. -/
def setup_telemetry_noarg (env : Env) (s : EmissionState) : Except String EmissionState :=
  setup_telemetry none env s

/-- Modelled from the spec: sink redirection for tests — a writer target
redirects output, `none` restores the default stderr sink. -/
def set_log_stream_for_testing (w : Option Nat) (s : EmissionState) : EmissionState :=
  { s with sink := match w with | some i => Sink.custom i | none => Sink.stderr }

/-- Modelled from the spec: `reset_pyvider_setup_for_testing()` — always
succeeds and restores the default uninitialized state including the default
sink, whatever the prior state was. -/
def reset_pyvider_setup_for_testing (_s : EmissionState) : EmissionState :=
  initialEmissionState

/-- One externally visible lifecycle operation on the engine state. -/
inductive EngineOp where
  | setupOp (cfg : Option TelemetryConfig) (env : Env)
  | setSink (w : Option Nat)
  | resetOp

/-- Apply one lifecycle operation; a failing setup leaves the state as it
was (the error is reported to the caller, not recorded in the state). -/
def applyOp (s : EmissionState) : EngineOp → EmissionState
  | EngineOp.setupOp cfg env =>
      match setup_telemetry cfg env s with
      | Except.ok s' => s'
      | Except.error _ => s
  | EngineOp.setSink w => set_log_stream_for_testing w s
  | EngineOp.resetOp => reset_pyvider_setup_for_testing s

/-- Apply a whole sequence of lifecycle operations in order. -/
def applyOps (ops : List EngineOp) (s : EmissionState) : EmissionState :=
  ops.foldl applyOp s

/-- Modelled from the spec: one log event as constructed at the call site —
the issuing handle's bound name, the reserved per-call name-override field,
the severity, the message, the optional Domain-Action-Status triplet, and
the caller-supplied structured fields in insertion order. -/
structure LogEvent where
  handle_name : Name
  pyvider_logger_name : Option Name := none
  level : LogLevel
  message : String
  domain : Option String := none
  action : Option String := none
  status : Option String := none
  fields : List (String × String) := []
  deriving DecidableEq

/-- The name an event is attributed to for level resolution and for
annotation: the reserved override field when present, the handle's bound
name otherwise. -/
def LogEvent.effName (ev : LogEvent) : Name :=
  ev.pyvider_logger_name.getD ev.handle_name

/-- Exact lookup in one of the static Domain-Action-Status glyph tables. -/
def lookupStr : List (String × String) → String → Option String
  | [], _ => none
  | e :: tl, k => if e.1 = k then some e.2 else lookupStr tl k

/-- Modelled from the spec: the three static Domain-Action-Status glyph
tables of the missing emoji matrix module, each with its neutral default
glyph. -/
structure DasTables where
  domainTable : List (String × String)
  domainDefault : String
  actionTable : List (String × String)
  actionDefault : String
  statusTable : List (String × String)
  statusDefault : String

/-- Modelled from the spec: the static annotator tables of the missing emoji
matrix module — the Domain-Action-Status tables plus the logger-name table
with its default glyph. -/
structure AnnTables where
  das : DasTables
  loggerTable : List (Name × String)
  loggerDefault : String

/-- Modelled from the spec: the logger-name annotator — the same longest
dotted-segment matching as the level resolver, against the static name
table; an unmatched name receives the defined default glyph. -/
def loggerNameGlyph (T : AnnTables) (n : Name) : String :=
  (segLookup T.loggerTable n).getD T.loggerDefault

/-- One Domain-Action-Status table lookup: an absent field or an
unrecognized value yields the table's neutral default glyph. -/
def dasGlyph (tbl : List (String × String)) (dflt : String) : Option String → String
  | none => dflt
  | some v => (lookupStr tbl v).getD dflt

/-- Modelled from the spec: the glyph sequence the Domain-Action-Status
annotator contributes — nothing at all when none of the three fields is
present, otherwise the three independent lookups concatenated in the fixed
order domain, action, status. -/
def dasGlyphSeq (T : DasTables) (d a st : Option String) : Option String :=
  match d, a, st with
  | none, none, none => none
  | _, _, _ =>
      some (dasGlyph T.domainTable T.domainDefault d
        ++ dasGlyph T.actionTable T.actionDefault a
        ++ dasGlyph T.statusTable T.statusDefault st)

/-- The Domain-Action-Status contribution for a whole event. -/
def dasContribution (T : DasTables) (ev : LogEvent) : Option String :=
  dasGlyphSeq T ev.domain ev.action ev.status

/-- Modelled from the spec: message annotation — the logger-name glyph first,
then the Domain-Action-Status glyph sequence, each only when its config flag
is enabled, prepended to the message. -/
def annotateMessage (T : AnnTables) (cfg : LoggingConfigR) (n : Name) (ev : LogEvent) : String :=
  let lgPart :=
    if cfg.logger_name_emoji_prefix_enabled then loggerNameGlyph T n ++ " " else ""
  let dasPart :=
    if cfg.das_emoji_prefix_enabled then
      match dasGlyphSeq T.das ev.domain ev.action ev.status with
      | some g => g ++ " "
      | none => ""
    else ""
  lgPart ++ dasPart ++ ev.message

/-- Modelled from the spec: the serialized record handed to the formatting
layer — attributed logger name, level, annotated message, service name,
timestamp suppression flag and the caller-supplied fields. -/
structure Record where
  logger_name : Name
  level : LogLevel
  text : String
  service_name : Option String
  omit_timestamp : Bool
  fields : List (String × String)
  deriving DecidableEq

/-- Build the record for an event under a resolved configuration; both the
attribution and the annotation use the event's effective name. -/
def buildRecord (T : AnnTables) (cfg : ResolvedConfig) (ev : LogEvent) : Record :=
  ⟨ev.effName, ev.level, annotateMessage T cfg.logging ev.effName ev,
    cfg.service_name, cfg.logging.omit_timestamp, ev.fields⟩

/-- The level check applied to an event: resolution uses the effective
name. -/
def shouldEmitEv (cfg : ResolvedConfig) (ev : LogEvent) : Bool :=
  should_emit cfg.logging.module_levels cfg.logging.default_level ev.effName ev.level

/-- The fallible tail of the emission path: serialization, then the sink
write; either step may fail. -/
def emitRecord (ser : Record → Except String String)
    (sinkW : String → Except String Unit) (r : Record) : Except String String :=
  match ser r with
  | Except.error e => Except.error e
  | Except.ok line =>
      match sinkW line with
      | Except.error e => Except.error e
      | Except.ok _ => Except.ok line

/-- The outcome of one dispatch: the event was written, was filtered out by
the level check, or was dropped because the emission path failed — in the
last case a best-effort diagnostic line goes to the fallback channel.  There
is no outcome that propagates an error back to the caller. -/
inductive DispatchResult where
  | emitted (line : String)
  | dropped
  | failedDropped (diag : String)
  deriving DecidableEq

/-- The best-effort diagnostic written to the fallback channel when the
emission path fails. -/
def diagLine (e : String) : String :=
  "pyvider telemetry emission failed: " ++ e

/-- Modelled from the spec: per-event dispatch (spec sections 4.3 and 7) —
short-circuit on the level check, then annotate, serialize and write; a
failure on the emission path is swallowed: the event is dropped and a
diagnostic goes to the fallback channel, and the dispatch itself always
returns normally. -/
def dispatch (T : AnnTables) (ser : Record → Except String String)
    (sinkW : String → Except String Unit) (cfg : ResolvedConfig) (ev : LogEvent) :
    DispatchResult :=
  if shouldEmitEv cfg ev then
    match emitRecord ser sinkW (buildRecord T cfg ev) with
    | Except.ok line => DispatchResult.emitted line
    | Except.error e => DispatchResult.failedDropped (diagLine e)
  else DispatchResult.dropped

/-- The configuration a log call sees: the active one, or the implicit
default when the engine is uninitialized. -/
def currentConfig (s : EmissionState) : ResolvedConfig :=
  s.config.getD defaultResolvedConfig

/-- Modelled from the spec: one per-level emission call against the current
engine state; safe in every state because an uninitialized engine falls back
to the implicit default configuration. -/
def logCall (T : AnnTables) (ser : Record → Except String String)
    (sinkW : String → Except String Unit) (s : EmissionState) (ev : LogEvent) :
    DispatchResult :=
  dispatch T ser sinkW (currentConfig s) ev

theorem resolveField_explicit {α : Type} (v : α) (envVal : Option String)
    (parse : String → Except String α) (dflt : α) :
    resolveField (some v) envVal parse dflt = Except.ok v := rfl

theorem resolveField_unset_unset {α : Type} (parse : String → Except String α) (dflt : α) :
    resolveField (none : Option α) none parse dflt = Except.ok dflt := rfl

theorem resolveField_unset_env {α : Type} (s : String)
    (parse : String → Except String α) (dflt : α) :
    resolveField (none : Option α) (some s) parse dflt = parse s := rfl

theorem resolveLogging_ok_inv (base : LoggingConfig) (env : Env) (r : LoggingConfigR)
    (h : resolveLogging base env = Except.ok r) :
    resolveField base.module_levels env.PYVIDER_LOG_MODULE_LEVELS parseModuleLevelsE []
      = Except.ok r.module_levels ∧
    resolveField base.default_level env.PYVIDER_LOG_LEVEL parseLevelE LogLevel.debug
      = Except.ok r.default_level ∧
    resolveField base.console_formatter env.PYVIDER_LOG_CONSOLE_FORMATTER parseFormatterE
      Formatter.keyValue = Except.ok r.console_formatter ∧
    resolveField base.das_emoji_prefix_enabled env.PYVIDER_LOG_DAS_EMOJI_ENABLED parseBoolE true
      = Except.ok r.das_emoji_prefix_enabled ∧
    resolveField base.omit_timestamp env.PYVIDER_LOG_OMIT_TIMESTAMP parseBoolE false
      = Except.ok r.omit_timestamp ∧
    r.logger_name_emoji_prefix_enabled = base.logger_name_emoji_prefix_enabled.getD true := by
  unfold resolveLogging at h
  cases h1 : resolveField base.module_levels env.PYVIDER_LOG_MODULE_LEVELS parseModuleLevelsE []
    with
  | error e => rw [h1] at h; exact Except.noConfusion h
  | ok ml =>
  rw [h1] at h
  cases h2 : resolveField base.default_level env.PYVIDER_LOG_LEVEL parseLevelE LogLevel.debug
    with
  | error e => rw [h2] at h; exact Except.noConfusion h
  | ok dl =>
  rw [h2] at h
  cases h3 : resolveField base.console_formatter env.PYVIDER_LOG_CONSOLE_FORMATTER
      parseFormatterE Formatter.keyValue with
  | error e => rw [h3] at h; exact Except.noConfusion h
  | ok cf =>
  rw [h3] at h
  cases h4 : resolveField base.das_emoji_prefix_enabled env.PYVIDER_LOG_DAS_EMOJI_ENABLED
      parseBoolE true with
  | error e => rw [h4] at h; exact Except.noConfusion h
  | ok de =>
  rw [h4] at h
  cases h5 : resolveField base.omit_timestamp env.PYVIDER_LOG_OMIT_TIMESTAMP parseBoolE false
    with
  | error e => rw [h5] at h; exact Except.noConfusion h
  | ok ot =>
  rw [h5] at h
  injection h with h7
  subst h7
  exact ⟨rfl, rfl, rfl, rfl, rfl, rfl⟩

theorem parsePair_error_of_malformed (p : String) (hm : malformedPair p = true) :
    ∃ e, parsePair p = Except.error e := by
  unfold malformedPair at hm
  unfold parsePair
  generalize hsp : splitOnChar ':' p.data = parts at hm ⊢
  clear hsp
  rcases parts with _ | ⟨a, _ | ⟨b, _ | ⟨c, tl⟩⟩⟩
  · exact ⟨_, rfl⟩
  · exact ⟨_, rfl⟩
  · simp only [malformedPairCore, Bool.or_eq_true, beq_iff_eq,
      Option.isNone_iff_eq_none] at hm
    simp only [parsePairCore]
    rcases hm with hm | hm
    · subst hm
      exact ⟨_, rfl⟩
    · by_cases ha : a = ""
      · subst ha
        exact ⟨_, rfl⟩
      · rw [if_neg ha, hm]
        exact ⟨_, rfl⟩
  · exact ⟨_, rfl⟩

theorem parsePairs_error_of_malformed (ps : List String) (p : String)
    (hp : p ∈ ps) (hm : malformedPair p = true) :
    ∃ e, parsePairs ps = Except.error e := by
  induction ps with
  | nil => cases hp
  | cons q qs ih =>
      rcases List.mem_cons.mp hp with h | h
      · subst h
        rcases parsePair_error_of_malformed p hm with ⟨e, he⟩
        exact ⟨e, by simp [parsePairs, he]⟩
      · rcases ih h with ⟨e, he⟩
        cases hq : parsePair q with
        | error e2 => exact ⟨e2, by simp [parsePairs, hq]⟩
        | ok kv => exact ⟨e, by simp [parsePairs, hq, he]⟩

/-- A minimal annotator-table set for instantiating theorems on concrete
inputs: empty tables with one neutral glyph. -/
def trivDasTables : DasTables := ⟨[], "x", [], "x", [], "x"⟩

/-- A minimal full table set for instantiating theorems on concrete inputs. -/
def trivAnnTables : AnnTables := ⟨trivDasTables, [], "x"⟩

/-- A serializer that always succeeds, for concrete instantiations. -/
def serOk : Record → Except String String := fun _ => Except.ok "line"

/-- A sink writer that always succeeds, for concrete instantiations. -/
def sinkOk : String → Except String Unit := fun _ => Except.ok ()

/-- A concrete plain event with no override and no DAS fields. -/
def evSample : LogEvent :=
  ⟨["auth"], none, LogLevel.info, "msg", none, none, none, []⟩

/-- A concrete event carrying the reserved per-call name-override field. -/
def evOverrideSample : LogEvent :=
  ⟨["app"], some ["database"], LogLevel.info, "msg", none, none, none, []⟩

/-- A concrete explicit configuration that sets the service name and the
default level and leaves everything else unset. -/
def cfgExplicitSample : TelemetryConfig :=
  { service_name := some "svc", logging := { default_level := some LogLevel.info } }

/-- A concrete environment that sets only the log-level variable. -/
def envLogLevelError : Env := { PYVIDER_LOG_LEVEL := some "ERROR" }

/-- C1: for every logger name, module-level map and default level, the
resolver returns the level bound to the longest key of the map that is a
dot-segment-aligned leading part of the name (the full name or a part
ending at a dot boundary), and the default when no key is such a part; in
particular the key "auth" resolves logger "auth.service" but never logger
"authority.service". -/
theorem effective_level_longest_match :
  (∀ (n : Name) (M : List (Name × LogLevel)) (d : LogLevel),
    ((∀ k, k ∈ M.map Prod.fst → ¬ isSegPref k n) → effective_level n M d = d) ∧
    ((M.map Prod.fst).Nodup →
      ∀ (k : Name) (l : LogLevel), (k, l) ∈ M → isSegPref k n →
        (∀ k', k' ∈ M.map Prod.fst → isSegPref k' n → k'.length ≤ k.length) →
        effective_level n M d = l)) ∧
  effective_level_str "auth.service" [("auth", LogLevel.debug)] LogLevel.info
    = LogLevel.debug ∧
  effective_level_str "authority.service" [("auth", LogLevel.debug)] LogLevel.info
    = LogLevel.info := by
  refine ⟨?_, by decide, by decide⟩
  intro n M d
  exact ⟨effective_level_no_match n M d,
    fun hnd k l hm hp hmax => effective_level_longest n M d k l hnd hm hp hmax⟩

/-- C1 witness: the general longest-match clause applied to the concrete map
of the module-filtering example resolves "auth.service" to DEBUG. -/
theorem effective_level_longest_match_witness :
  effective_level ["auth", "service"] [(["auth"], LogLevel.debug)] LogLevel.info
    = LogLevel.debug :=
  (effective_level_longest_match.1 ["auth", "service"]
      [(["auth"], LogLevel.debug)] LogLevel.info).2
    (by decide)
    ["auth"] LogLevel.debug
    (by decide)
    ⟨by decide, ["service"], rfl⟩
    (fun k' hk' _ => by
      simp only [List.map_cons, List.map_nil, List.mem_singleton] at hk'
      subst hk'
      exact Nat.le_refl _)

/-- C2 counterexample: the claim that an explicit configuration is used
fully as-is fails — with the same explicit configuration supplied, the
resolved default level differs between an environment that sets
PYVIDER_LOG_LEVEL and an empty environment, so a field of the result is
derived from an environment variable. -/
theorem resolve_explicit_env_cex :
  ((resolveConfig (some {}) envLogLevelError).toOption.map
      (fun r => r.logging.default_level)) ≠
  ((resolveConfig (some {}) {}).toOption.map
      (fun r => r.logging.default_level)) := by
  decide

/-- C2 amended: an explicit configuration wins outright for every field it
sets — the service name is taken exactly as supplied and no set
LoggingConfig field is replaced by an environment value — while an unset
optional sub-field of LoggingConfig falls back to environment-or-default
resolution. -/
theorem resolve_explicit_field_precedence :
  ∀ (c : TelemetryConfig) (env : Env) (r : ResolvedConfig),
    resolveConfig (some c) env = Except.ok r →
    r.service_name = c.service_name ∧
    (∀ l, c.logging.default_level = some l → r.logging.default_level = l) ∧
    (∀ m, c.logging.module_levels = some m → r.logging.module_levels = m) ∧
    (∀ f, c.logging.console_formatter = some f → r.logging.console_formatter = f) ∧
    (∀ b, c.logging.logger_name_emoji_prefix_enabled = some b →
      r.logging.logger_name_emoji_prefix_enabled = b) ∧
    (∀ b, c.logging.das_emoji_prefix_enabled = some b →
      r.logging.das_emoji_prefix_enabled = b) ∧
    (∀ b, c.logging.omit_timestamp = some b → r.logging.omit_timestamp = b) ∧
    (c.logging.default_level = none → env.PYVIDER_LOG_LEVEL = none →
      r.logging.default_level = LogLevel.debug) ∧
    (∀ s l, c.logging.default_level = none → env.PYVIDER_LOG_LEVEL = some s →
      parseLevel s = some l → r.logging.default_level = l) := by
  intro c env r h
  have h' : (match resolveLogging c.logging env with
      | Except.error e => Except.error e
      | Except.ok lg => (Except.ok ⟨c.service_name, lg⟩ : Except String ResolvedConfig))
      = Except.ok r := h
  clear h
  cases hlg : resolveLogging c.logging env with
  | error e => rw [hlg] at h'; exact Except.noConfusion h'
  | ok lg =>
      rw [hlg] at h'
      injection h' with h'
      subst h'
      obtain ⟨h1, h2, h3, h4, h5, h6⟩ := resolveLogging_ok_inv c.logging env lg hlg
      refine ⟨rfl, ?_, ?_, ?_, ?_, ?_, ?_, ?_, ?_⟩
      · intro l hl
        rw [hl, resolveField_explicit] at h2
        injection h2 with h2
        exact h2.symm
      · intro m hm
        rw [hm, resolveField_explicit] at h1
        injection h1 with h1
        exact h1.symm
      · intro f hf
        rw [hf, resolveField_explicit] at h3
        injection h3 with h3
        exact h3.symm
      · intro b hb
        rw [hb] at h6
        exact h6
      · intro b hb
        rw [hb, resolveField_explicit] at h4
        injection h4 with h4
        exact h4.symm
      · intro b hb
        rw [hb, resolveField_explicit] at h5
        injection h5 with h5
        exact h5.symm
      · intro hc henv
        rw [hc, henv, resolveField_unset_unset] at h2
        injection h2 with h2
        exact h2.symm
      · intro s l hc henv hl
        rw [hc, henv, resolveField_unset_env] at h2
        unfold parseLevelE at h2
        rw [hl] at h2
        injection h2 with h2
        exact h2.symm

/-- C2 witness: on a concrete explicit configuration, resolution succeeds
and preserves both the supplied service name and the explicitly set default
level even though the environment sets a different level. -/
theorem resolve_explicit_field_precedence_witness :
  ∃ r : ResolvedConfig,
    resolveConfig (some cfgExplicitSample) envLogLevelError = Except.ok r ∧
    r.service_name = some "svc" ∧ r.logging.default_level = LogLevel.info := by
  refine ⟨⟨some "svc", ⟨LogLevel.info, [], Formatter.keyValue, true, true, false⟩⟩,
    rfl, ?_, ?_⟩
  · exact (resolve_explicit_field_precedence cfgExplicitSample envLogLevelError _ rfl).1
  · exact (resolve_explicit_field_precedence cfgExplicitSample envLogLevelError _
      rfl).2.1 LogLevel.info rfl

/-- C3: TRACE ranks strictly below DEBUG in the registry's total order, and
with default level TRACE and no module-specific rule applying to the name,
the level check admits every level of the registry. -/
theorem trace_below_debug_admits_all :
  LogLevel.rank LogLevel.trace < LogLevel.rank LogLevel.debug ∧
  ∀ (n : Name) (M : List (Name × LogLevel)) (l : LogLevel),
    (∀ k, k ∈ M.map Prod.fst → ¬ isSegPref k n) →
    should_emit M LogLevel.trace n l = true := by
  refine ⟨by decide, ?_⟩
  intro n M l h
  have he : effective_level n M LogLevel.trace = LogLevel.trace :=
    effective_level_no_match n M LogLevel.trace h
  have hr : LogLevel.rank (effective_level n M LogLevel.trace) ≤ LogLevel.rank l := by
    rw [he]
    cases l <;> decide
  unfold should_emit
  exact decide_eq_true hr

/-- C3 witness: with default TRACE and no module rules, even a CRITICAL
event on an arbitrary name passes the check. -/
theorem trace_below_debug_admits_all_witness :
  should_emit [] LogLevel.trace ["x"] LogLevel.critical = true :=
  trace_below_debug_admits_all.2 ["x"] [] LogLevel.critical (by simp)

/-- C4: any value of the module-levels environment variable containing at
least one malformed pair makes module-level parsing fail with a descriptive
error, and environment-based setup then fails as a whole rather than
returning a configuration with the pair dropped or defaulted. -/
theorem malformed_module_levels_fail_setup :
  ∀ (s : String),
    (∃ p, p ∈ splitOnChar ',' s.data ∧ malformedPair p = true) →
    (∃ e, parseModuleLevelsE s = Except.error e) ∧
    (∀ (env : Env) (st : EmissionState), env.PYVIDER_LOG_MODULE_LEVELS = some s →
      ∃ e, setup_telemetry none env st = Except.error e) := by
  intro s hs
  rcases hs with ⟨p, hp, hm⟩
  rcases parsePairs_error_of_malformed _ p hp hm with ⟨e, he⟩
  have hpm : parseModuleLevelsE s = Except.error e := he
  refine ⟨⟨e, hpm⟩, ?_⟩
  intro env st henv
  refine ⟨e, ?_⟩
  have hrf : resolveField ({} : LoggingConfig).module_levels env.PYVIDER_LOG_MODULE_LEVELS
      parseModuleLevelsE [] = Except.error e := by
    rw [henv]
    show resolveField none (some s) parseModuleLevelsE [] = Except.error e
    rw [resolveField_unset_env]
    exact hpm
  have hrl : resolveLogging {} env = Except.error e := by
    unfold resolveLogging
    rw [hrf]
  have hrc : resolveConfig none env = Except.error e := by
    unfold resolveConfig
    rw [hrl]
  unfold setup_telemetry
  rw [hrc]

/-- C4 witness: the pair "auth:NOTALEVEL" is malformed, its parse fails, and
environment-based setup with it fails. -/
theorem malformed_module_levels_fail_setup_witness :
  (∃ e, parseModuleLevelsE "auth:NOTALEVEL" = Except.error e) ∧
  (∃ e, setup_telemetry none { PYVIDER_LOG_MODULE_LEVELS := some "auth:NOTALEVEL" }
      initialEmissionState = Except.error e) := by
  have h := malformed_module_levels_fail_setup "auth:NOTALEVEL"
    ⟨"auth:NOTALEVEL", by decide, by decide⟩
  exact ⟨h.1, h.2 { PYVIDER_LOG_MODULE_LEVELS := some "auth:NOTALEVEL" }
    initialEmissionState rfl⟩

/-- C5: an event carrying the reserved per-call override field has its level
resolution and its annotation computed from the override name: the dispatch
outcome equals that of the same event issued under the override name with no
override, and is independent of the issuing handle's name — the handle
itself is untouched. -/
theorem override_retargets_resolution :
  ∀ (T : AnnTables) (ser : Record → Except String String)
    (sinkW : String → Except String Unit) (cfg : ResolvedConfig)
    (ev : LogEvent) (o : Name),
    ev.pyvider_logger_name = some o →
    shouldEmitEv cfg ev
      = should_emit cfg.logging.module_levels cfg.logging.default_level o ev.level ∧
    (buildRecord T cfg ev).logger_name = o ∧
    dispatch T ser sinkW cfg ev
      = dispatch T ser sinkW cfg
          { ev with handle_name := o, pyvider_logger_name := none } ∧
    (∀ h : Name, dispatch T ser sinkW cfg { ev with handle_name := h }
      = dispatch T ser sinkW cfg ev) := by
  intro T ser sinkW cfg ev o hov
  obtain ⟨hn, pn, lv, msg, dm, ac, stf, fs⟩ := ev
  change pn = some o at hov
  subst hov
  exact ⟨rfl, rfl, rfl, fun h => rfl⟩

/-- C5 witness: a concrete event overridden to the name "database" is
dispatched exactly like the same event issued from "database" without the
override. -/
theorem override_retargets_resolution_witness :
  dispatch trivAnnTables serOk sinkOk defaultResolvedConfig evOverrideSample
    = dispatch trivAnnTables serOk sinkOk defaultResolvedConfig
        ⟨["database"], none, LogLevel.info, "msg", none, none, none, []⟩ :=
  (override_retargets_resolution trivAnnTables serOk sinkOk defaultResolvedConfig
    evOverrideSample ["database"] rfl).2.2.1

/-- C6: the Domain-Action-Status glyph sequence is a pure function of the
three fields: with all three absent it is nothing at all; otherwise it is
the three independent table lookups concatenated in the fixed
domain-action-status order, each lookup defaulting to the neutral glyph on
an absent or unrecognized value. -/
theorem das_glyphs_properties :
  ∀ (T : DasTables) (d a st : Option String),
    dasGlyphSeq T none none none = none ∧
    ((d.isSome ∨ a.isSome ∨ st.isSome) →
      dasGlyphSeq T d a st
        = some (dasGlyph T.domainTable T.domainDefault d
            ++ dasGlyph T.actionTable T.actionDefault a
            ++ dasGlyph T.statusTable T.statusDefault st)) ∧
    (∀ tbl dflt, dasGlyph tbl dflt none = dflt) ∧
    (∀ tbl dflt v, lookupStr tbl v = none → dasGlyph tbl dflt (some v) = dflt) ∧
    (∀ ev ev' : LogEvent, ev.domain = ev'.domain → ev.action = ev'.action →
      ev.status = ev'.status → dasContribution T ev = dasContribution T ev') := by
  intro T d a st
  refine ⟨rfl, ?_, fun tbl dflt => rfl, ?_, ?_⟩
  · intro hs
    cases d with
    | some v => rfl
    | none =>
        cases a with
        | some v => rfl
        | none =>
            cases st with
            | some v => rfl
            | none => simp at hs
  · intro tbl dflt v hv
    simp [dasGlyph, hv]
  · intro ev ev' h1 h2 h3
    unfold dasContribution
    rw [h1, h2, h3]

/-- C6 witness: on empty tables, an event with only a domain field yields
the three-glyph concatenation, and the unrecognized domain lookup falls back
to the neutral glyph. -/
theorem das_glyphs_properties_witness :
  dasGlyphSeq trivDasTables (some "auth") none none
    = some (dasGlyph trivDasTables.domainTable trivDasTables.domainDefault (some "auth")
        ++ dasGlyph trivDasTables.actionTable trivDasTables.actionDefault none
        ++ dasGlyph trivDasTables.statusTable trivDasTables.statusDefault none) ∧
  dasGlyph trivDasTables.domainTable trivDasTables.domainDefault (some "auth") = "x" :=
  ⟨(das_glyphs_properties trivDasTables (some "auth") none none).2.1 (Or.inl rfl),
   (das_glyphs_properties trivDasTables (some "auth") none none).2.2.2.1
     trivDasTables.domainTable trivDasTables.domainDefault "auth" rfl⟩

/-- C7: dispatch never propagates an emission-path failure back to the
caller: every dispatch outcome is emitted, level-dropped, or
failure-dropped, and the failure-dropped outcome occurs exactly when the
serialization-or-write pipeline fails, carrying the best-effort diagnostic
for the fallback channel. -/
theorem emission_failure_never_raises :
  ∀ (T : AnnTables) (ser : Record → Except String String)
    (sinkW : String → Except String Unit) (cfg : ResolvedConfig) (ev : LogEvent),
    (∃ line, dispatch T ser sinkW cfg ev = DispatchResult.emitted line ∧
      emitRecord ser sinkW (buildRecord T cfg ev) = Except.ok line) ∨
    dispatch T ser sinkW cfg ev = DispatchResult.dropped ∨
    (∃ e, dispatch T ser sinkW cfg ev = DispatchResult.failedDropped (diagLine e) ∧
      emitRecord ser sinkW (buildRecord T cfg ev) = Except.error e) := by
  intro T ser sinkW cfg ev
  cases hse : shouldEmitEv cfg ev with
  | true =>
      cases her : emitRecord ser sinkW (buildRecord T cfg ev) with
      | ok line => exact Or.inl ⟨line, by simp [dispatch, hse, her], rfl⟩
      | error e => exact Or.inr (Or.inr ⟨e, by simp [dispatch, hse, her], rfl⟩)
  | false => exact Or.inr (Or.inl (by simp [dispatch, hse]))

/-- C8: reset always succeeds and restores the default uninitialized engine
state — no configuration and the stderr sink — from every prior state,
including every state reachable by lifecycle operations and the never-set-up
initial state itself. -/
theorem reset_restores_default_state :
  (∀ s : EmissionState, reset_pyvider_setup_for_testing s = initialEmissionState) ∧
  (∀ ops : List EngineOp,
    reset_pyvider_setup_for_testing (applyOps ops initialEmissionState)
      = initialEmissionState) ∧
  reset_pyvider_setup_for_testing initialEmissionState = initialEmissionState ∧
  initialEmissionState.config = none ∧ initialEmissionState.sink = Sink.stderr :=
  ⟨fun _ => rfl, fun _ => rfl, rfl, rfl, rfl⟩

/-- C9: a per-level emission call in the uninitialized state does not fail:
it equals dispatch under the implicit default configuration, in particular
on the never-set-up initial state. -/
theorem logging_before_setup_safe :
  ∀ (T : AnnTables) (ser : Record → Except String String)
    (sinkW : String → Except String Unit) (s : EmissionState) (ev : LogEvent),
    (s.config = none →
      logCall T ser sinkW s ev = dispatch T ser sinkW defaultResolvedConfig ev) ∧
    logCall T ser sinkW initialEmissionState ev
      = dispatch T ser sinkW defaultResolvedConfig ev := by
  intro T ser sinkW s ev
  constructor
  · intro h
    unfold logCall currentConfig
    rw [h]
    rfl
  · rfl

/-- C9 witness: a concrete call on the never-set-up initial state equals
dispatch under the implicit default configuration. -/
theorem logging_before_setup_safe_witness :
  logCall trivAnnTables serOk sinkOk initialEmissionState evSample
    = dispatch trivAnnTables serOk sinkOk defaultResolvedConfig evSample :=
  (logging_before_setup_safe trivAnnTables serOk sinkOk initialEmissionState
    evSample).1 rfl

/-- C10: setup with the explicit argument None equals setup with the
argument omitted, and both configure the engine with the
environment-resolved configuration, leaving the same configured state. -/
theorem setup_none_equiv_noarg :
  ∀ (env : Env) (s : EmissionState),
    setup_telemetry none env s = setup_telemetry_noarg env s ∧
    (∀ r, resolveConfig none env = Except.ok r →
      setup_telemetry none env s = Except.ok { s with config := some r } ∧
      setup_telemetry_noarg env s = Except.ok { s with config := some r }) := by
  intro env s
  refine ⟨rfl, ?_⟩
  intro r hr
  constructor
  · unfold setup_telemetry
    rw [hr]
  · unfold setup_telemetry_noarg setup_telemetry
    rw [hr]

/-- C10 witness: with an empty environment, both calls succeed and leave
the engine configured with the default resolved configuration. -/
theorem setup_none_equiv_noarg_witness :
  setup_telemetry none {} initialEmissionState
    = setup_telemetry_noarg {} initialEmissionState ∧
  setup_telemetry none {} initialEmissionState
    = Except.ok { initialEmissionState with config := some defaultResolvedConfig } := by
  have h := setup_none_equiv_noarg {} initialEmissionState
  exact ⟨h.1, (h.2 defaultResolvedConfig rfl).1⟩

end PyviderTelemetry
